import Mathlib

/-!
Shallow embedding of the mod compatibility engine of ComMod (mod.py):
version parsing and comparison, constraint evaluation, requirement and
reinstallability checks, the install copy-plan builder, and manifest
validation.  Python strings are Lean Strings, Python ints are Nat,
Python floats appearing in schema range checks are exact rationals
(every IEEE float is a rational and the source only compares them),
and Python exceptions are the PyError sum: fallible code returns
Except PyError.  External collaborators (localisation, console
colouring, the filesystem, file copying) are modelled as parameters or
as identities on their inputs, with a note at each definition.
-/

namespace ComMod

/-- Python exception kinds raised by the embedded code paths. -/
inductive PyError where
  | attributeError
  | keyError
  | indexError
  | typeError
  | valueError
  | notImplementedError
  deriving Repr, DecidableEq

/-- ASCII fragment of Python str.isnumeric: nonempty and all digits. -/
def pyIsNumeric (s : String) : Bool :=
  !s.data.isEmpty && s.data.all Char.isDigit

/-- Python int() applied to a numeric (all-digits) string. -/
def pyInt (s : String) : Nat :=
  s.data.foldl (fun n c => 10 * n + (c.toNat - 48)) 0

/-- Python str.lower, ASCII. -/
def pyLowerStr (s : String) : String := String.mk (s.data.map Char.toLower)

/-- Python slicing s[:n]. -/
def pyTakeStr (s : String) (n : Nat) : String := String.mk (s.data.take n)

/-- Python lexicographic comparison of character lists (by code point). -/
def pyListLt : List Char → List Char → Bool
  | [], [] => false
  | [], _ :: _ => true
  | _ :: _, [] => false
  | a :: xs, b :: ys =>
    if a.toNat < b.toNat then true
    else if a.toNat == b.toNat then pyListLt xs ys
    else false

/-- Python string less-than. -/
def pyStrLt (a b : String) : Bool := pyListLt a.data b.data

/-- Split a character list at the first occurrence of sep, if any. -/
def splitFirst (sep : Char) : List Char → Option (List Char × List Char)
  | [] => none
  | c :: rest =>
    if c == sep then some ([], rest)
    else match splitFirst sep rest with
      | none => none
      | some p => some (c :: p.1, p.2)

/-- Python str.split(sep) on character lists. -/
def splitChar (sep : Char) : List Char → List (List Char)
  | [] => [[]]
  | c :: rest =>
    match splitChar sep rest with
    | [] => [[c]]
    | h :: t => if c == sep then [] :: h :: t else (c :: h) :: t

/-- Mod.Version: major, minor, patch are bounded strings, identifier is
the optional pre-release tag (empty string when absent, as in the source). -/
structure Version where
  major : String
  minor : String
  patch : String
  identifier : String
  deriving Repr, DecidableEq

/-- Mod.Version.__init__ (mod.py 1133-1165). -/
def mkVersion (versionStr : String) : Version :=
  let cs := versionStr.data
  let idSplit := splitFirst '-' cs
  let identifier := match idSplit with
    | none => ""
    | some p => String.mk p.2
  let numericVersion := match idSplit with
    | none => String.mk cs
    | some p => String.mk p.1
  let hasMinorVer := cs.contains '.'
  if hasMinorVer then
    let versionSplit := (splitChar '.' numericVersion.data).map String.mk
    let versionLevels := versionSplit.length
    let major := if versionLevels > 0 then pyTakeStr (versionSplit.getD 0 "0") 4 else "0"
    let minor := if versionLevels > 1 then pyTakeStr (versionSplit.getD 1 "0") 4 else "0"
    let patch :=
      if versionLevels > 3 then String.join (versionSplit.drop 2)
      else if versionLevels > 2 then pyTakeStr (versionSplit.getD 2 "0") 10
      else "0"
    { major := major, minor := minor, patch := patch, identifier := identifier }
  else
    { major := numericVersion, minor := "0", patch := "0", identifier := identifier }

/-- Mod.Version.is_numeric: computed at construction from the three
numeric parts, which are never mutated afterwards. -/
def Version.isNumeric (v : Version) : Bool :=
  pyIsNumeric v.major && pyIsNumeric v.minor && pyIsNumeric v.patch

/-- The tuple (int(major), int(minor), int(patch)) used by the numeric
branches of __eq__ and __lt__. -/
def Version.numTriple (v : Version) : Nat × Nat × Nat :=
  (pyInt v.major, pyInt v.minor, pyInt v.patch)

/-- The tuple (major.lower(), minor.lower(), patch.lower()). -/
def Version.lowTriple (v : Version) : String × String × String :=
  (pyLowerStr v.major, pyLowerStr v.minor, pyLowerStr v.patch)

/-- Python tuple less-than on numeric triples. -/
def tripleLt (a b : Nat × Nat × Nat) : Bool :=
  decide (a.1 < b.1) ||
    (a.1 == b.1 && (decide (a.2.1 < b.2.1) || (a.2.1 == b.2.1 && decide (a.2.2 < b.2.2))))

/-- Mod.Version.__eq__ (mod.py 1179-1190).  In the non-numeric branch the
source compares the left operand with itself on both sides of ==. -/
def Version.eq (a b : Version) : Bool :=
  if a.isNumeric && b.isNumeric then
    decide (a.numTriple = b.numTriple)
  else
    decide (a.lowTriple = a.lowTriple)

/-- Mod.Version.__lt__ (mod.py 1192-1203).  The non-numeric branch reads
the undefined attribute self.path and so raises AttributeError. -/
def Version.lt (a b : Version) : Except PyError Bool :=
  if a.isNumeric && b.isNumeric then
    Except.ok (tripleLt a.numTriple b.numTriple)
  else
    Except.error PyError.attributeError

/-- The comparison operators used on versions by the resolver. -/
inductive CmpOp where
  | ge | le | gt | lt | eq
  deriving Repr, DecidableEq

/-- The operators as derived by functools.total_ordering from
Version.__eq__ and Version.__lt__: ge is not-lt, gt is not-lt and not-eq,
le is lt-or-eq. -/
def Version.compareOp (op : CmpOp) (a b : Version) : Except PyError Bool :=
  match op with
  | CmpOp.eq => Except.ok (Version.eq a b)
  | CmpOp.lt => Version.lt a b
  | CmpOp.ge => do pure (!(← Version.lt a b))
  | CmpOp.gt => do pure (!(← Version.lt a b) && !(Version.eq a b))
  | CmpOp.le => do pure ((← Version.lt a b) || Version.eq a b)

/-- Removal of all occurrences of the sign characters, as done by the
chained str.replace calls before parsing a constraint version. -/
def stripSigns (s : String) : String :=
  String.mk (s.data.filter (fun c => !(c == '>') && !(c == '<') && !(c == '=')))

/-- Does the second string begin the first (Python s[:len(p)] == p). -/
def startsWithChars : List Char → List Char → Bool
  | [], _ => true
  | _ :: _, [] => false
  | p :: ps, c :: cs => p == c && startsWithChars ps cs

def pyStarts (s p : String) : Bool := startsWithChars p.data s.data

/-- Operator selection in check_requirement and check_incompatible
(mod.py 422-431): a bare version means equality. -/
def parseOpPrereq (version : String) : CmpOp :=
  if pyStarts version ">=" then CmpOp.ge
  else if pyStarts version "<=" then CmpOp.le
  else if pyStarts version ">" then CmpOp.gt
  else if pyStarts version "<" then CmpOp.lt
  else CmpOp.eq

/-- Operator selection in compatible_with_mod_manager (mod.py 930-941):
a bare version means greater-or-equal. -/
def parseOpPatcher (version : String) : CmpOp :=
  if pyStarts version ">=" then CmpOp.ge
  else if pyStarts version "<=" then CmpOp.le
  else if pyStarts version ">" then CmpOp.gt
  else if pyStarts version "<" then CmpOp.lt
  else if pyStarts version "=" then CmpOp.eq
  else CmpOp.ge

/-- Python set.add on the collected operator set, kept in insertion
order; the later list(set) conversion may reorder it arbitrarily. -/
def insertOp (ops : List CmpOp) (op : CmpOp) : List CmpOp :=
  if ops.contains op then ops else ops ++ [op]

/-- The constraint loop of Mod.check_requirement (mod.py 420-445):
version_validated is reassigned on every iteration, so the final value
reflects only the last constraint, adjusted for identifier equality when
that constraint is an equality.  Returns the verdict and the collected
operator set in insertion order. -/
def versionValidatedLoop (prereqVersions : List String) (installedVersion : String) :
    Except PyError (Bool × List CmpOp) :=
  prereqVersions.foldlM
    (fun acc version => do
      let compareOperation := parseOpPrereq version
      let stripped := stripSigns version
      let parsedExistingVer := mkVersion installedVersion
      let parsedRequiredVer := mkVersion stripped
      let r ← Version.compareOp compareOperation parsedExistingVer parsedRequiredVer
      let r :=
        if compareOperation == CmpOp.eq then
          if !(parsedRequiredVer.identifier == "") then
            if !(parsedExistingVer.identifier == parsedRequiredVer.identifier) then false else r
          else r
        else r
      pure (r, insertOp acc.2 compareOperation))
    (true, [])

/-- The constraint loop of Mod.check_incompatible (mod.py 645-672):
version_incomp is likewise reassigned on every iteration; a matching
equality constraint with a differing identifier forces it to true. -/
def versionIncompLoop (incompVersions : List String) (installedVersion : String) :
    Except PyError (Bool × List CmpOp) :=
  incompVersions.foldlM
    (fun acc version => do
      let compareOperation := parseOpPrereq version
      let stripped := stripSigns version
      let parsedExistingVer := mkVersion installedVersion
      let parsedIncompatVer := mkVersion stripped
      let r ← Version.compareOp compareOperation parsedExistingVer parsedIncompatVer
      let r :=
        if compareOperation == CmpOp.eq then
          if !(parsedIncompatVer.identifier == "") then
            if !(parsedExistingVer.identifier == parsedIncompatVer.identifier) then true else r
          else r
        else r
      pure (r, insertOp acc.2 compareOperation))
    (false, [])

/-- Style derivation from the collected operator set, applied to the set
in whatever order list(set) yields (mod.py 447-461 and 674-688; the same
code appears in check_requirement and check_incompatible).  The second
range test repeats operator.lt where the first test uses operator.le. -/
def deriveStyle (compareOps : List CmpOp) : String :=
  let lenOps := compareOps.length
  if lenOps == 1 && compareOps.contains CmpOp.eq then "strict"
  else if lenOps == 2 && !(compareOps.contains CmpOp.eq) then
    let op0 := compareOps.getD 0 CmpOp.eq
    let op1 := compareOps.getD 1 CmpOp.eq
    if (op0 == CmpOp.ge || op0 == CmpOp.gt) && (op1 == CmpOp.le || op1 == CmpOp.lt) then "range"
    else if (op0 == CmpOp.lt || op0 == CmpOp.lt) && (op1 == CmpOp.ge || op1 == CmpOp.gt) then "range"
    else "mixed"
  else "mixed"

/-- Python dict lookup for a dict built by successive assignment:
the last binding of a key wins. -/
def dictGet {α : Type} : List (String × α) → String → Option α
  | [], _ => none
  | x :: rest, k =>
    match dictGet rest k with
    | some v => some v
    | none => if x.1 == k then some x.2 else none

/-- Modelled from the spec: the localisation table lookup tr lives in the
external localisation module; it is modelled as the identity on keys,
and calls with keyword substitutions as the bare key. -/
def tr (key : String) : String := key

/-- Modelled from the spec: colour-code stripping from the external
colouring module; identity on the plain strings produced here. -/
def remove_colors (text : String) : String := text

/-- Python str.join. -/
def joinWith (sep : String) (parts : List String) : String :=
  match parts with
  | [] => ""
  | p :: rest => rest.foldl (fun acc x => acc ++ sep ++ x) p

/-- Append a message only when it is not already present, as the source
guards several appends with a membership test. -/
def appendIfAbsent (l : List String) (x : String) : List String :=
  if l.contains x then l else l ++ [x]

/-- Python str.capitalize: first character uppercased, rest lowercased. -/
def pyCapitalize (s : String) : String :=
  match s.data with
  | [] => ""
  | c :: rest => String.mk (c.toUpper :: rest.map Char.toLower)

/-- Python str.strip applied with the newline-only argument. -/
def pyStripNl (s : String) : String :=
  String.mk (((s.data.dropWhile (fun c => c == '\n')).reverse.dropWhile
    (fun c => c == '\n')).reverse)

def isPyWs (c : Char) : Bool := c == ' ' || c == '\t' || c == '\n' || c == '\r'

/-- Python str.strip with no argument (ASCII whitespace). -/
def pyStrip (s : String) : String :=
  String.mk (((s.data.dropWhile isPyWs).reverse.dropWhile isPyWs).reverse)

/-- A single quote character, used inside generated messages. -/
def sq : String := String.mk [Char.ofNat 39]

/-- The installed-mods manifest entry for one mod, as persisted by the
installer: version, build, display_name and the per-option values. -/
structure InstalledEntry where
  version : String
  build : String
  displayName : Option String
  options : List (String × String)
  deriving Repr, DecidableEq

/-- Python .get on the persisted entry dict: the fixed fields live next
to the per-option values. -/
def InstalledEntry.pyGet (e : InstalledEntry) (k : String) : Option String :=
  if k == "version" then some e.version
  else if k == "build" then some e.build
  else if k == "display_name" then e.displayName
  else dictGet e.options k

/-- One prerequisite or incompatible entry after the loader normalised
name and versions to lists; an absent or empty versions or
optional_content field is falsy either way and is kept as []. -/
structure Prereq where
  names : List String
  versions : List String
  optionalContent : List String
  deriving Repr, DecidableEq

structure OptContent where
  name : String
  deriving Repr, DecidableEq

/-- The Mod fields consumed by the verified operations. -/
structure ModData where
  name : String
  displayName : String
  version : String
  build : String
  prerequisites : List Prereq
  incompatible : List Prereq
  optionalContent : Option (List OptContent)
  patcherVersionRequirement : List String
  distibutionDir : String
  noBaseContent : Bool
  deriving Repr, DecidableEq

def expectSome {α : Type} (o : Option α) (e : PyError) : Except PyError α :=
  match o with
  | some a => Except.ok a
  | none => Except.error e

/-- The body of the per-option failure in the optional-content loop of
check_requirement (mod.py 469-478). -/
def ocFail (st : Bool × List String) (option : String) (nameLabel : String) :
    Bool × List String :=
  let requirementErr := tr "content_requirement_not_met" ++ ":"
  let requirementName := "  * " ++ sq ++ option ++ sq ++ " " ++ tr "for_mod" ++ " " ++ nameLabel
  (false, appendIfAbsent st.2 requirementErr ++ [requirementName])

/-- Mod.check_requirement (mod.py 371-517).  self enters only through
self.name, passed as selfName; the write-only mutations of
self.requirements_style and of the name_label cache on the prereq dict
are covered by deriveStyle and by the returned label data. -/
def check_requirement (selfName : String) (prereq : Prereq)
    (existingContent : List (String × InstalledEntry))
    (existingContentDescriptions : List (String × String))
    (isCompatchEnv : Bool) : Except PyError (Bool × List String) := do
  let requiredModName : Option String :=
    prereq.names.foldl
      (fun acc n => if (dictGet existingContent n).isSome then some n else acc) none
  let nameValidated := requiredModName.isSome
  let errorMsg : List String := []
  let compatchClash :=
    requiredModName == some "community_patch" &&
    (dictGet existingContent "community_remaster").isSome &&
    !(selfName == "community_remaster") &&
    !(prereq.names.contains "community_remaster")
  let nameValidated := if compatchClash then false else nameValidated
  let errorMsg :=
    if compatchClash then errorMsg ++ [tr "compatch_mod_incompatible_with_comrem"] else errorMsg
  let orWord := " " ++ tr "or" ++ " "
  let andWord := " " ++ tr "and" ++ " "
  let nameLabelParts ← prereq.names.mapM (fun serviceName =>
    match dictGet existingContent serviceName with
    | some existingMod =>
      match existingMod.displayName with
      | some d => Except.ok (d, false)
      | none => Except.error PyError.keyError
    | none => Except.ok (serviceName, true))
  let onlyTechnicalNameAvailable := nameLabelParts.any (fun p => p.2)
  let nameLabel := joinWith orWord (nameLabelParts.map (fun p => p.1))
  let versionLabel :=
    if !prereq.versions.isEmpty then
      ", " ++ tr "of_version" ++ ": " ++ joinWith andWord prereq.versions
    else ""
  let versionValidated ←
    if !prereq.versions.isEmpty && nameValidated then do
      let reqName ← expectSome requiredModName PyError.keyError
      let entry ← expectSome (dictGet existingContent reqName) PyError.keyError
      let r ← versionValidatedLoop prereq.versions entry.version
      pure r.1
    else pure true
  let optionalContentLabel :=
    if !prereq.optionalContent.isEmpty then
      ", " ++ pyLowerStr (tr "including_options") ++ ": " ++ joinWith ", " prereq.optionalContent
    else ""
  let st ←
    if !prereq.optionalContent.isEmpty && nameValidated && versionValidated then do
      let reqName ← expectSome requiredModName PyError.keyError
      let entry ← expectSome (dictGet existingContent reqName) PyError.keyError
      pure (prereq.optionalContent.foldl
        (fun (st : Bool × List String) option =>
          match entry.pyGet option with
          | none => ocFail st option nameLabel
          | some v => if v == "skip" then ocFail st option nameLabel else st)
        (true, errorMsg))
    else pure (true, errorMsg)
  let optionalContentValidated := st.1
  let errorMsg := st.2
  let validated := nameValidated && versionValidated && optionalContentValidated
  let errorMsg ←
    if !validated then do
      let warning :=
        "\n" ++ (if !nameValidated then tr "required_mod_not_found" else tr "required_base") ++ ":"
      let errorMsg := appendIfAbsent errorMsg warning
      let nameLabelTr := if onlyTechnicalNameAvailable then tr "technical_name" else tr "mod_name"
      let errorMsg := errorMsg ++
        [pyCapitalize nameLabelTr ++ ": " ++ nameLabel ++ versionLabel ++ optionalContentLabel]
      let installedDescription :=
        match requiredModName with
        | some n => dictGet existingContentDescriptions n
        | none => none
      match installedDescription with
      | some d =>
        let d := pyStripNl d
        let entry := "\n" ++ pyCapitalize (tr "version_available") ++ ":\n" ++ remove_colors d
        pure (appendIfAbsent errorMsg entry)
      | none =>
        if isCompatchEnv && prereq.names.contains "community_remaster" then
          match dictGet existingContentDescriptions "community_patch" with
          | some d2 =>
            let entry := "\n" ++ pyCapitalize (tr "version_available") ++ ":\n" ++ remove_colors d2
            pure (appendIfAbsent errorMsg entry)
          | none => Except.error PyError.typeError
        else pure errorMsg
    else pure errorMsg
  pure (validated, errorMsg)

abbrev ReqAcc := Bool × List String × List (Prereq × Bool × List String)

/-- One loop iteration of check_requirements after check_requirement
returned: append the status triple, extend the messages when nonempty,
and conjoin the verdict. -/
def stepAcc (acc : ReqAcc) (p : Prereq) (r : Bool × List String) : ReqAcc :=
  (acc.1 && r.1,
   acc.2.1 ++ (if r.2.isEmpty then [] else r.2),
   acc.2.2 ++ [(p, r.1, r.2)])

/-- The prerequisite loop of Mod.check_requirements (mod.py 535-546):
for the community_remaster mod, an entry whose first alternative name is
community_patch is skipped; indexing the first name of an empty list
raises IndexError. -/
def prereqsFold (selfName : String) (existingContent : List (String × InstalledEntry))
    (existingContentDescriptions : List (String × String)) (isCompatchEnv : Bool) :
    List Prereq → ReqAcc → Except PyError ReqAcc
  | [], acc => Except.ok acc
  | p :: rest, acc =>
    if selfName == "community_remaster" then
      match p.names with
      | [] => Except.error PyError.indexError
      | n0 :: _ =>
        if n0 == "community_patch" then
          prereqsFold selfName existingContent existingContentDescriptions isCompatchEnv rest acc
        else do
          let r ← check_requirement selfName p existingContent existingContentDescriptions
            isCompatchEnv
          prereqsFold selfName existingContent existingContentDescriptions isCompatchEnv rest
            (stepAcc acc p r)
    else do
      let r ← check_requirement selfName p existingContent existingContentDescriptions
        isCompatchEnv
      prereqsFold selfName existingContent existingContentDescriptions isCompatchEnv rest
        (stepAcc acc p r)

def clearIdentifier (v : Version) : Version :=
  { v with identifier := "" }

/-- Mod.compatible_with_mod_manager (mod.py 921-972). -/
def compatible_with_mod_manager (m : ModData) (patcherVersion : String) :
    Except PyError (Bool × String) := do
  let patcherVersionParsed := clearIdentifier (mkVersion patcherVersion)
  let r ← m.patcherVersionRequirement.foldlM
    (fun (acc : Bool × Bool) version => do
      let compareOperation := parseOpPatcher version
      let stripped := stripSigns version
      let parsedRequiredVer := clearIdentifier (mkVersion stripped)
      let tooNew ←
        if compareOperation == CmpOp.eq then do
          let l ← Version.lt parsedRequiredVer patcherVersionParsed
          pure (acc.2 || l)
        else pure acc.2
      let c ← Version.compareOp compareOperation patcherVersionParsed parsedRequiredVer
      pure (acc.1 && c, tooNew))
    (true, false)
  let errorMsg :=
    if !r.1 then
      if r.2 && m.name == "community_remaster" then
        tr "usupported_patcher_version" ++ "\n\n" ++ tr "check_for_a_new_version" ++ "\n\n" ++
          tr "demteam_links" ++ "\n"
      else tr "usupported_patcher_version"
    else ""
  pure (r.1, pyStrip errorMsg)

/-- Mod.check_requirements (mod.py 519-551).  The source guards the
patcher-version block on the truthiness of the tuple returned by
compatible_with_mod_manager, which is always truthy; the branch body is
therefore dead, but the call itself still runs and may raise. -/
def check_requirements (m : ModData) (existingContent : List (String × InstalledEntry))
    (existingContentDescriptions : List (String × String)) (patcherVersion : String) :
    Except PyError ReqAcc := do
  let isCompatchEnv :=
    !(dictGet existingContent "community_remaster").isSome &&
    (dictGet existingContent "community_patch").isSome
  let _ ←
    if !(patcherVersion == "") then do
      let _ ← compatible_with_mod_manager m patcherVersion
      pure ()
    else pure ()
  let acc ← prereqsFold m.name existingContent existingContentDescriptions isCompatchEnv
    m.prerequisites (true, [], [])
  let errorMsg :=
    if acc.2.1.isEmpty then acc.2.1 else acc.2.1 ++ ["\n" ++ tr "check_for_a_new_version"]
  pure (acc.1, errorMsg, acc.2.2)

/-- Truthiness of self.optional_content (None or the empty list are falsy). -/
def optionalContentTruthy (m : ModData) : Bool :=
  match m.optionalContent with
  | none => false
  | some l => !l.isEmpty

/-- Mod.check_reinstallability (mod.py 553-602).  The set difference of
installed names against self-and-prerequisites is modelled as the key
list filtered in insertion order; the iteration order of a Python set is
unspecified and only the joined warning text depends on it. -/
def check_reinstallability (m : ModData)
    (existingContent : List (String × InstalledEntry)) :
    Bool × Bool × String × Option InstalledEntry :=
  let previousInstall := dictGet existingContent m.name
  let previousInstall :=
    if m.name == "community_remaster" then
      match previousInstall with
      | none => dictGet existingContent "community_patch"
      | some e => some e
    else previousInstall
  match previousInstall with
  | none => (false, true, "", none)
  | some prev =>
    let selfAndPrereqs := m.name :: (m.prerequisites.map (fun p => p.names)).flatten
    let existingOtherMods :=
      (existingContent.map Prod.fst).filter (fun k => !selfAndPrereqs.contains k)
    if !existingOtherMods.isEmpty then
      let existingModsDisplayNames := existingOtherMods.map (fun n =>
        match dictGet existingContent n with
        | some e => e.displayName.getD n
        | none => n)
      (true, false,
       tr "cant_reinstall_over_other_mods" ++ ": " ++ joinWith ", " existingModsDisplayNames,
       some prev)
    else
      let existingVersion := mkVersion prev.version
      let thisVersion := mkVersion m.version
      if Version.eq existingVersion thisVersion then
        if m.build == prev.build then
          if optionalContentTruthy m then (true, true, tr "complex_safe_reinstall", some prev)
          else (true, true, tr "safe_reinstall", some prev)
        else if pyStrLt prev.build m.build then
          if optionalContentTruthy m then (true, true, tr "complex_unsafe_reinstall", some prev)
          else (true, true, tr "unsafe_reinstall", some prev)
        else (true, false, tr "cant_reinstall_over_newer_build", some prev)
      else (true, false, tr "cant_reinstall_over_other_version", some prev)

/-- os.path.join on the relative fragments used by the installer. -/
def pjoin (parts : List String) : String := joinWith "/" parts

/-- Mod.options_dict, built from the optional content names. -/
def optionsDict (m : ModData) : List (String × OptContent) :=
  (m.optionalContent.getD []).map (fun o => (o.name, o))

/-- The copy-plan loop of Mod.install (mod.py 327-362): iterate the
selection keys; the base branch appends the base data directory after
checking that the base value and every declared option key are present;
other keys consult options_dict (KeyError when unknown) and append the
option directories according to the selected value. -/
def modFilesFold (m : ModData) (sel : List (String × String)) :
    List (String × String) → List String → Except PyError (List String)
  | [], acc => Except.ok acc
  | kv :: rest, acc =>
    if kv.1 == "base" then
      match dictGet sel "base" with
      | none => Except.error PyError.keyError
      | some _ => do
        let _ ←
          match m.optionalContent with
          | some opts =>
            opts.foldlM
              (fun _ o =>
                match dictGet sel o.name with
                | none => Except.error PyError.keyError
                | some _ => Except.ok ()) ()
          | none => Except.ok ()
        modFilesFold m sel rest (acc ++ [pjoin [m.distibutionDir, "data"]])
    else do
      let wipSetting ← expectSome (dictGet (optionsDict m) kv.1) PyError.keyError
      let res ← expectSome (dictGet sel kv.1) PyError.keyError
      if res == "yes" then
        modFilesFold m sel rest (acc ++ [pjoin [m.distibutionDir, wipSetting.name, "data"]])
      else if res == "skip" then
        modFilesFold m sel rest acc
      else
        modFilesFold m sel rest
          (acc ++ [pjoin [m.distibutionDir, wipSetting.name, "data"],
                   pjoin [m.distibutionDir, wipSetting.name, res]])

/-- The ordered copy plan produced by Mod.install for a selection map. -/
def buildModFiles (m : ModData) (installSettings : List (String × String)) :
    Except PyError (List String) :=
  modFilesFold m installSettings installSettings []

/-- The try-protected body of Mod.install (mod.py 321-366): requirement
check, plan construction, then the external copy (a parameter here). -/
def installBody (copyFromTo : List String → String → Except PyError Unit)
    (m : ModData) (gameDataPath : String) (installSettings : List (String × String))
    (existingContent : List (String × InstalledEntry))
    (existingContentDescriptions : List (String × String)) :
    Except PyError (Bool × List String) := do
  let acc ← check_requirements m existingContent existingContentDescriptions ""
  if acc.1 then do
    let modFiles ← buildModFiles m installSettings
    let _ ← copyFromTo modFiles gameDataPath
    pure (true, [])
  else pure (false, acc.2.1)

/-- Mod.install (mod.py 315-369): the whole body runs under a
try/except Exception that turns any raise into (False, []). -/
def install (copyFromTo : List String → String → Except PyError Unit)
    (m : ModData) (gameDataPath : String) (installSettings : List (String × String))
    (existingContent : List (String × InstalledEntry))
    (existingContentDescriptions : List (String × String)) : Bool × List String :=
  match installBody copyFromTo m gameDataPath installSettings existingContent
      existingContentDescriptions with
  | Except.ok r => r
  | Except.error _ => (false, [])

/-- The contribution of one selection pair to the produced copy plan,
used to compare the plan built by install against its specification. -/
def planJob (m : ModData) (kv : String × String) : List String :=
  if kv.1 == "base" then [pjoin [m.distibutionDir, "data"]]
  else
    match dictGet (optionsDict m) kv.1 with
    | none => []
    | some o =>
      if kv.2 == "yes" then [pjoin [m.distibutionDir, o.name, "data"]]
      else if kv.2 == "skip" then []
      else [pjoin [m.distibutionDir, o.name, "data"], pjoin [m.distibutionDir, o.name, kv.2]]

/-- A mod with no prerequisites, incompatibles or optional content. -/
def simpleMod (n v b : String) : ModData :=
  { name := n, displayName := n, version := v, build := b, prerequisites := [],
    incompatible := [], optionalContent := none,
    patcherVersionRequirement := [">=1.10"], distibutionDir := "distro/" ++ n,
    noBaseContent := false }

def simpleEntry (v b : String) : InstalledEntry :=
  { version := v, build := b, displayName := none, options := [] }

/-- An external copy routine that always succeeds. -/
def okCopy : List String → String → Except PyError Unit := fun _ _ => Except.ok ()

/-- A mod with no base content flag set and no optional content. -/
def c4skipMod : ModData :=
  { simpleMod "nb" "1.0" "1" with noBaseContent := true }

/-- A mod with one flat optional content named opt1. -/
def c4optMod : ModData :=
  { simpleMod "om" "1.0" "1" with
    optionalContent := some [{ name := "opt1" }], distibutionDir := "d" }

/-- The community_remaster mod with a community_patch prerequisite and a
second ordinary prerequisite. -/
def c9mod : ModData :=
  { simpleMod "community_remaster" "1.0" "1" with
    prerequisites :=
      [{ names := ["community_patch"], versions := [], optionalContent := [] },
       { names := ["beta"], versions := [], optionalContent := [] }] }

/-- YAML-derived values as consumed by the validator: mappings have
string keys, ints are Int, and the floats reaching the schema range
checks are exact rationals (every IEEE float is a rational and the
source only compares them). -/
inductive Val where
  | vnone
  | vbool (b : Bool)
  | vint (n : Int)
  | vfloat (q : Rat)
  | vstr (s : String)
  | vlist (l : List Val)
  | vdict (l : List (String × Val))

/-- The Python types appearing in the validation schemas; tListOf stands
for a parameterised list whose element type is the union of args. -/
inductive Ty where
  | tStr | tInt | tFloat | tBool | tList | tDict
  | tListOf (args : List Ty)

/-- Python isinstance against a schema type; bool is a subclass of int,
and a generic list type checks only its origin here. -/
def isinst (v : Val) (t : Ty) : Bool :=
  match v, t with
  | Val.vstr _, Ty.tStr => true
  | Val.vint _, Ty.tInt => true
  | Val.vbool _, Ty.tInt => true
  | Val.vfloat _, Ty.tFloat => true
  | Val.vbool _, Ty.tBool => true
  | Val.vlist _, Ty.tList => true
  | Val.vdict _, Ty.tDict => true
  | Val.vlist _, Ty.tListOf _ => true
  | _, _ => false

def isGeneric : Ty → Bool
  | Ty.tListOf _ => true
  | _ => false

/-- The generic branch of validate_dict (mod.py 995-1006): only generic
list entries are examined, a value that is not an instance of the
generic origin leaves the verdict untouched, and the non-generic
alternatives of the type list are never checked.  (The inner else for an
origin instance whose concrete type is not list or dict is unreachable
in this value model.) -/
def checkGenerics (types : List Ty) (value : Val) : Bool :=
  types.all (fun t =>
    match t, value with
    | Ty.tListOf args, Val.vlist elems => elems.all (fun e => args.any (isinst e))
    | _, _ => true)

def Val.isNone : Val → Bool
  | Val.vnone => true
  | _ => false

/-- Python dict .get(field): None for a missing key; a stored null
behaves the same. -/
def valGet (entries : List (String × Val)) (field : String) : Val :=
  (dictGet entries field).getD Val.vnone

abbrev SchemaField := String × List Ty × Bool

/-- One field check of Mod.validate_dict (mod.py 983-1011). -/
def fieldOk (entries : List (String × Val)) (f : SchemaField) : Bool :=
  let value := valGet entries f.1
  let types := f.2.1
  let required := f.2.2
  if required && value.isNone then false
  else if required || !value.isNone then
    if types.any isGeneric then checkGenerics types value
    else types.any (isinst value)
  else true

/-- Mod.validate_dict (mod.py 974-1012). -/
def validateDict (v : Val) (scheme : List SchemaField) : Bool :=
  match v with
  | Val.vdict entries => scheme.all (fieldOk entries)
  | _ => false

def isValDict : Val → Bool
  | Val.vdict _ => true
  | _ => false

/-- Mod.validate_list (mod.py 1056-1064): elements that are not dicts
are silently skipped. -/
def validateList (l : List Val) (scheme : List SchemaField) : Bool :=
  (l.filter isValDict).all (fun e => validateDict e scheme)

abbrev CSchemaField := String × List Ty × Bool × Option (Rat × Rat)

def isFloatTy : Ty → Bool
  | Ty.tFloat => true
  | _ => false

def isIntTy : Ty → Bool
  | Ty.tInt => true
  | _ => false

/-- The numeric view taken by the range check of
validate_dict_constrained: float(value) when float is allowed, else
int(value), with bool converting to 0 or 1; the conversions cannot fail
because isinstance has already passed. -/
def toNum (types : List Ty) (value : Val) : Option Rat :=
  if types.any isFloatTy then
    match value with
    | Val.vfloat q => some q
    | _ => none
  else if types.any isIntTy then
    match value with
    | Val.vint n => some (n : Rat)
    | Val.vbool b => some (if b then 1 else 0)
    | _ => none
  else none

/-- The loop of Mod.validate_dict_constrained (mod.py 1020-1054). -/
def constrainedLoop (entries : List (String × Val)) : List CSchemaField → Bool
  | [] => true
  | f :: rest =>
    let value := valGet entries f.1
    let types := f.2.1
    let required := f.2.2.1
    let bounds := f.2.2.2
    if required && value.isNone then false
    else if required || !value.isNone then
      if !(types.any (isinst value)) then false
      else
        match toNum types value, bounds with
        | some q, some b =>
          if decide (b.1 ≤ q) && decide (q ≤ b.2) then constrainedLoop entries rest
          else false
        | _, _ => constrainedLoop entries rest
    else constrainedLoop entries rest

/-- Mod.validate_dict_constrained (mod.py 1014-1054); calling .get on a
non-dict value raises AttributeError at the first schema field. -/
def validateDictConstrained (v : Val) (scheme : List CSchemaField) : Except PyError Bool :=
  match v with
  | Val.vdict entries => Except.ok (constrainedLoop entries scheme)
  | _ => Except.error PyError.attributeError

/-- schema_fieds_top of validate_install_config (mod.py 760-784). -/
def schemaFiedsTop : List SchemaField :=
  [("name", [Ty.tStr], true),
   ("display_name", [Ty.tStr], true),
   ("version", [Ty.tStr, Ty.tInt, Ty.tFloat], true),
   ("build", [Ty.tStr], true),
   ("description", [Ty.tStr], true),
   ("authors", [Ty.tStr], true),
   ("prerequisites", [Ty.tList], true),
   ("incompatible", [Ty.tList], false),
   ("patcher_version_requirement",
     [Ty.tStr, Ty.tFloat, Ty.tInt, Ty.tListOf [Ty.tStr, Ty.tFloat, Ty.tInt]], true),
   ("release_date", [Ty.tStr], false),
   ("language", [Ty.tStr], true),
   ("translations", [Ty.tListOf [Ty.tStr]], false),
   ("link", [Ty.tStr], false),
   ("tags", [Ty.tListOf [Ty.tStr]], false),
   ("logo", [Ty.tStr], false),
   ("install_banner", [Ty.tStr], false),
   ("screenshots", [Ty.tList], false),
   ("change_log", [Ty.tStr], false),
   ("other_info", [Ty.tStr], false),
   ("patcher_options", [Ty.tDict], false),
   ("optional_content", [Ty.tList], false),
   ("no_base_content", [Ty.tBool, Ty.tStr], false)]

/-- schema_prereqs (mod.py 786-790), used for prerequisite and
incompatible entries alike. -/
def schemaPrereqs : List SchemaField :=
  [("name", [Ty.tStr, Ty.tListOf [Ty.tStr]], true),
   ("versions", [Ty.tListOf [Ty.tStr, Ty.tInt, Ty.tFloat]], false),
   ("optional_content", [Ty.tListOf [Ty.tStr]], false)]

/-- schema_patcher_options (mod.py 791-796). -/
def schemaPatcherOptions : List CSchemaField :=
  [("gravity", [Ty.tFloat], false, some (-100, -1)),
   ("skins_in_shop", [Ty.tInt], false, some (8, 32)),
   ("blast_damage_friendly_fire", [Ty.tBool, Ty.tStr], false, none),
   ("game_font", [Ty.tStr], false, none)]

/-- schema_optional_content (mod.py 797-804). -/
def schemaOptionalContent : List SchemaField :=
  [("name", [Ty.tStr], true),
   ("display_name", [Ty.tStr], true),
   ("description", [Ty.tStr], true),
   ("default_option", [Ty.tStr], false),
   ("install_settings", [Ty.tList], false)]

/-- schema_install_settins (mod.py 805-808). -/
def schemaInstallSettins : List SchemaField :=
  [("name", [Ty.tStr], true),
   ("description", [Ty.tStr], true)]

/-- Python truthiness. -/
def valTruthy : Val → Bool
  | Val.vnone => false
  | Val.vbool b => b
  | Val.vint n => !(decide (n = 0))
  | Val.vfloat q => !(decide (q = 0))
  | Val.vstr s => !s.data.isEmpty
  | Val.vlist l => !l.isEmpty
  | Val.vdict l => !l.isEmpty

/-- install_config.get(field) for a possibly non-dict config. -/
def topGet (cfg : Val) (field : String) : Val :=
  match cfg with
  | Val.vdict entries => valGet entries field
  | _ => Val.vnone

/-- value.get(field): AttributeError when the value is not a dict. -/
def valGetA (v : Val) (field : String) : Except PyError Val :=
  match v with
  | Val.vdict entries => Except.ok (valGet entries field)
  | _ => Except.error PyError.attributeError

/-- Iterating a value with a for loop: TypeError unless it is a list. -/
def valIter (v : Val) : Except PyError (List Val) :=
  match v with
  | Val.vlist l => Except.ok l
  | _ => Except.error PyError.typeError

/-- os.path.join argument conversion: TypeError unless a string. -/
def valAsStr (v : Val) : Except PyError String :=
  match v with
  | Val.vstr s => Except.ok s
  | _ => Except.error PyError.typeError

/-- Python == between a value and a string literal. -/
def valEqStr (v : Val) (s : String) : Bool :=
  match v with
  | Val.vstr t => t == s
  | _ => false

/-- Does the pattern occur as a contiguous run of the target. -/
def containsSub (p : List Char) : List Char → Bool
  | [] => p.isEmpty
  | c :: rest => startsWithChars p (c :: rest) || containsSub p rest

/-- Python membership s in v for the shapes reachable from the forbidden
prerequisite check: a list compares elementwise with ==, a dict checks
its keys, a string is a substring test; other values are not containers
and raise TypeError. -/
def pyInVal (s : String) (v : Val) : Except PyError Bool :=
  match v with
  | Val.vlist elems => Except.ok (elems.any (fun e =>
      match e with
      | Val.vstr t => t == s
      | _ => false))
  | Val.vdict entries => Except.ok (entries.any (fun p => p.1 == s))
  | Val.vstr t => Except.ok (containsSub s.data t.data)
  | _ => Except.error PyError.typeError

/-- The forbidden-prerequisite test on one schema-validated entry
(mod.py 827-834): community_patch among the alternative names together
with a truthy optional_content value. -/
def prereqEntryForbidden (e : Val) : Except PyError Bool := do
  let nameVal ← valGetA e "name"
  let checked :=
    match nameVal with
    | Val.vstr s => Val.vlist [Val.vstr s]
    | other => other
  let isIn ← pyInVal "community_patch" checked
  let oc ← valGetA e "optional_content"
  pure (isIn && valTruthy oc && !oc.isNone)

/-- The forbidden-incompatible test on one schema-validated entry
(mod.py 845-850): bool(set(checked) intersected with the community_patch
singleton).  Building a set raises TypeError on unhashable (list or
dict) elements and on a non-iterable value; a set of a dict takes its
keys; the string case is unreachable because a string name was wrapped
in a list, and a set of its characters cannot contain the slug. -/
def incompEntryForbidden (e : Val) : Except PyError Bool := do
  let nameVal ← valGetA e "name"
  let checked :=
    match nameVal with
    | Val.vstr s => Val.vlist [Val.vstr s]
    | other => other
  match checked with
  | Val.vlist elems =>
    if elems.any (fun x =>
        match x with
        | Val.vlist _ => true
        | Val.vdict _ => true
        | _ => false) then
      Except.error PyError.typeError
    else
      Except.ok (elems.any (fun x =>
        match x with
        | Val.vstr t => t == "community_patch"
        | _ => false))
  | Val.vdict entries => Except.ok (entries.any (fun p => p.1 == "community_patch"))
  | Val.vstr _ => Except.ok false
  | _ => Except.error PyError.typeError

/-- The prerequisite validation loop of validate_install_config
(mod.py 823-834): schema-validate each entry and, while validation still
holds, accumulate the forbidden flag. -/
def prereqLoop : List Val → Bool → Bool → Except PyError (Bool × Bool)
  | [], validated, hasForb => Except.ok (validated, hasForb)
  | e :: rest, validated, hasForb =>
    let validated := validated && validateDict e schemaPrereqs
    if validated then do
      let forb ← prereqEntryForbidden e
      prereqLoop rest validated (hasForb || forb)
    else
      prereqLoop rest validated hasForb

/-- The incompatible validation loop (mod.py 842-850). -/
def incompLoop : List Val → Bool → Bool → Except PyError (Bool × Bool)
  | [], validated, hasForb => Except.ok (validated, hasForb)
  | e :: rest, validated, hasForb =>
    let validated := validated && validateDict e schemaPrereqs
    if validated then do
      let forb ← incompEntryForbidden e
      incompLoop rest validated (hasForb || forb)
    else
      incompLoop rest validated hasForb

/-- The patcher_options section of validate_install_config
(mod.py 818-820). -/
def patcherSection (po : Val) (validated : Bool) : Except PyError Bool :=
  if po.isNone then Except.ok validated
  else do
    let r ← validateDictConstrained po schemaPatcherOptions
    pure (validated && r)

/-- The prerequisites section (mod.py 822-838). -/
def prereqSection (pre : Val) (validated : Bool) : Except PyError Bool :=
  if pre.isNone then Except.ok validated
  else do
    let entries ← valIter pre
    let r ← prereqLoop entries validated false
    pure (r.1 && !r.2)

/-- The prerequisites section without the final forbidden-flag
conjunction, for comparing which manifests that flag alone rejects. -/
def prereqSectionNF (pre : Val) (validated : Bool) : Except PyError Bool :=
  if pre.isNone then Except.ok validated
  else do
    let entries ← valIter pre
    let r ← prereqLoop entries validated false
    pure r.1

/-- The incompatibles section (mod.py 840-855). -/
def incompSection (inc : Val) (validated : Bool) : Except PyError Bool :=
  if inc.isNone then Except.ok validated
  else do
    let entries ← valIter inc
    let r ← incompLoop entries validated false
    pure (r.1 && !r.2)

/-- The incompatibles section without the forbidden-flag conjunction. -/
def incompSectionNF (inc : Val) (validated : Bool) : Except PyError Bool :=
  if inc.isNone then Except.ok validated
  else do
    let entries ← valIter inc
    let r ← incompLoop entries validated false
    pure r.1

/-- The option loop of the optional_content section (mod.py 861-881):
reserved names reject, a complex option needs more than one install
setting and schema-valid settings, nested patcher options are range
checked; .get on a non-dict element raises AttributeError. -/
def optionLoop : List Val → Bool → Except PyError Bool
  | [], validated => Except.ok validated
  | option :: rest, validated => do
    let name ← valGetA option "name"
    let validated :=
      if valEqStr name "base" || valEqStr name "display_name" ||
          valEqStr name "build" || valEqStr name "version" then false
      else validated
    let installSettings ← valGetA option "install_settings"
    let validated ←
      if !installSettings.isNone then do
        let settings ← valIter installSettings
        let v := validated && decide (settings.length > 1)
        pure (v && validateList settings schemaInstallSettins)
      else pure validated
    let po ← valGetA option "patcher_options"
    let validated ←
      if !po.isNone then do
        let r ← validateDictConstrained po schemaPatcherOptions
        pure (validated && r)
      else pure validated
    optionLoop rest validated

/-- The optional_content section (mod.py 857-881). -/
def ocSection (oc : Val) (validated : Bool) : Except PyError Bool :=
  if oc.isNone then Except.ok validated
  else do
    let entries ← valIter oc
    let validated := validated && validateList entries schemaOptionalContent
    if validated then optionLoop entries validated else pure validated

/-- Path(mod_config_path).parent.parent over slash-joined paths. -/
def pathParentParent (p : String) : String :=
  joinWith "/" ((p.splitOn "/").dropLast.dropLast)

/-- The per-setting directory checks (mod.py 904-912). -/
def dataSettingsLoop (isdir : String → Bool) (modPath idStr optName : String) :
    List Val → Bool → Except PyError Bool
  | [], validated => Except.ok validated
  | setting :: rest, validated => do
    let sName ← valGetA setting "name"
    let sStr ← valAsStr sName
    let validated := validated && isdir (pjoin [modPath, idStr, optName, sStr])
    dataSettingsLoop isdir modPath idStr optName rest validated

/-- The per-option directory checks (mod.py 899-914). -/
def dataOptionLoop (isdir : String → Bool) (modPath : String) (modIdentifier : Val) :
    List Val → Bool → Except PyError Bool
  | [], validated => Except.ok validated
  | option :: rest, validated => do
    let name ← valGetA option "name"
    let idStr ← valAsStr modIdentifier
    let nameStr ← valAsStr name
    let validated := validated && isdir (pjoin [modPath, idStr, nameStr])
    let settingsVal ← valGetA option "install_settings"
    let validated ←
      if !settingsVal.isNone then do
        let settings ← valIter settingsVal
        dataSettingsLoop isdir modPath idStr nameStr settings validated
      else pure validated
    dataOptionLoop isdir modPath modIdentifier rest validated

/-- The data-directory validation section (mod.py 883-914): the
community_remaster mod lives in the remaster folder, the base data
directory is required unless no_base_content is truthy, and each option
and setting needs its directory. -/
def dataSection (isdir : String → Bool) (modPath : String) (cfg : Val) (oc : Val)
    (skipDataValidation : Bool) (validated : Bool) : Except PyError Bool :=
  if skipDataValidation then Except.ok validated
  else do
    let modIdentifier :=
      if valEqStr (topGet cfg "name") "community_remaster" then Val.vstr "remaster"
      else topGet cfg "name"
    let validated ←
      if !(valTruthy (topGet cfg "no_base_content")) then do
        let idStr ← valAsStr modIdentifier
        pure (validated && isdir (pjoin [modPath, idStr, "data"]))
      else pure validated
    if !oc.isNone then do
      let entries ← valIter oc
      dataOptionLoop isdir modPath modIdentifier entries validated
    else pure validated

/-- Mod.validate_install_config (mod.py 753-919).  The filesystem probe
os.path.isdir is the external parameter isdir. -/
def validate_install_config (isdir : String → Bool) (installConfig : Val)
    (modConfigPath : String) (skipDataValidation : Bool) : Except PyError Bool :=
  let modPath := pathParentParent modConfigPath
  match installConfig with
  | Val.vdict _ =>
    let validated := validateDict installConfig schemaFiedsTop
    if validated then do
      let v1 ← patcherSection (topGet installConfig "patcher_options") validated
      let v2 ← prereqSection (topGet installConfig "prerequisites") v1
      let v3 ← incompSection (topGet installConfig "incompatible") v2
      let v4 ← ocSection (topGet installConfig "optional_content") v3
      let v5 ← dataSection isdir modPath installConfig
        (topGet installConfig "optional_content") skipDataValidation v4
      pure v5
    else Except.ok validated
  | _ => Except.ok false

/-- validate_install_config with the two forbidden-flag conjunctions
removed, for comparing which manifests those flags alone reject. -/
def validate_install_config_noForbidden (isdir : String → Bool) (installConfig : Val)
    (modConfigPath : String) (skipDataValidation : Bool) : Except PyError Bool :=
  let modPath := pathParentParent modConfigPath
  match installConfig with
  | Val.vdict _ =>
    let validated := validateDict installConfig schemaFiedsTop
    if validated then do
      let v1 ← patcherSection (topGet installConfig "patcher_options") validated
      let v2 ← prereqSectionNF (topGet installConfig "prerequisites") v1
      let v3 ← incompSectionNF (topGet installConfig "incompatible") v2
      let v4 ← ocSection (topGet installConfig "optional_content") v3
      let v5 ← dataSection isdir modPath installConfig
        (topGet installConfig "optional_content") skipDataValidation v4
      pure v5
    else Except.ok validated
  | _ => Except.ok false

def exceptOkTrue (r : Except PyError Bool) : Bool :=
  match r with
  | Except.ok true => true
  | _ => false

/-- Does some prerequisite entry trip the forbidden-prerequisite test. -/
def forbiddenPrereqs (cfg : Val) : Bool :=
  match topGet cfg "prerequisites" with
  | Val.vlist l => l.any (fun e => exceptOkTrue (prereqEntryForbidden e))
  | _ => false

/-- Does some incompatible entry name community_patch. -/
def forbiddenIncomps (cfg : Val) : Bool :=
  match topGet cfg "incompatible" with
  | Val.vlist l => l.any (fun e => exceptOkTrue (incompEntryForbidden e))
  | _ => false

/-- An otherwise loadable manifest whose only irregularity is a
prerequisite pairing community_patch with a truthy but non-list
optional_content value (a non-empty string). -/
def c7truthyOcCfg : Val :=
  Val.vdict
    [("name", Val.vstr "m"),
     ("display_name", Val.vstr "M"),
     ("version", Val.vstr "1.0"),
     ("build", Val.vstr "1"),
     ("description", Val.vstr "d"),
     ("authors", Val.vstr "a"),
     ("language", Val.vstr "eng"),
     ("patcher_version_requirement", Val.vstr ">=1.10"),
     ("prerequisites", Val.vlist
       [Val.vdict [("name", Val.vstr "community_patch"),
                   ("optional_content", Val.vstr "abc")]])]

/-- A manifest fragment with the claim-style forbidden prerequisite:
community_patch with a non-empty optional_content list. -/
def c7forbiddenPrereqCfg : Val :=
  Val.vdict
    [("prerequisites", Val.vlist
       [Val.vdict [("name", Val.vstr "community_patch"),
                   ("optional_content", Val.vlist [Val.vstr "opt_a"])]])]

/-- A manifest fragment with an incompatible entry naming community_patch. -/
def c7forbiddenIncompCfg : Val :=
  Val.vdict
    [("incompatible", Val.vlist
       [Val.vdict [("name", Val.vstr "community_patch")]])]

/-- A manifest with no forbidden entries at all. -/
def c7cleanCfg : Val := Val.vdict []

def allDirs : String → Bool := fun _ => true

end ComMod

namespace ComMod

/-- Version equality is reflexive in both branches of the source. -/
theorem version_eq_refl (a : Version) : Version.eq a a = true := by
  unfold Version.eq
  split <;> simp

/-- C1 [code_bug]: the version verdict is not a conjunction over the
constraint set.  With constraints less-than-1.0 and at-least-0.5 against
installed version 2.0.0, the first constraint fails (as the singleton
evaluation shows) yet the two-constraint verdict is true, because each
iteration overwrites version_validated; the same holds for the
check_incompatible loop. -/
theorem c1_constraint_conjunction_bug :
    versionValidatedLoop ["<1.0", ">=0.5"] "2.0.0" = Except.ok (true, [CmpOp.lt, CmpOp.ge]) ∧
    versionValidatedLoop ["<1.0"] "2.0.0" = Except.ok (false, [CmpOp.lt]) ∧
    versionIncompLoop ["<1.0", ">=0.5"] "2.0.0" = Except.ok (true, [CmpOp.lt, CmpOp.ge]) ∧
    versionIncompLoop ["<1.0"] "2.0.0" = Except.ok (false, [CmpOp.lt]) :=
  ⟨rfl, rfl, rfl, rfl⟩

/-- C6 [code_bug]: for the constraints at-most-3.0 and greater-than-2.0
the collected operator set is {le, gt}, one upper and one lower bound and
no equality, yet the derived style depends on the unspecified list(set)
order: gt-first yields range, le-first yields mixed, because the second
range test repeats operator.lt where operator.le was intended. -/
theorem c6_style_set_order_bug :
    (versionValidatedLoop ["<=3.0", ">2.0"] "2.5").map (fun r => r.2) =
      Except.ok [CmpOp.le, CmpOp.gt] ∧
    deriveStyle [CmpOp.gt, CmpOp.le] = "range" ∧
    deriveStyle [CmpOp.le, CmpOp.gt] = "mixed" :=
  ⟨rfl, rfl, rfl⟩

/-- C5 [code_bug]: whenever at least one operand is non-numeric,
Version.__lt__ raises AttributeError instead of comparing lowercased
string tuples, because it reads the undefined attribute self.path. -/
theorem c5_nonnumeric_lt_raises (a b : Version)
    (h : (a.isNumeric && b.isNumeric) = false) :
    Version.lt a b = Except.error PyError.attributeError := by
  simp [Version.lt, h]

/-- Witness for c5_nonnumeric_lt_raises at two concrete non-numeric versions. -/
theorem c5_nonnumeric_lt_raises_witness :
    Version.lt (mkVersion "alpha") (mkVersion "beta") = Except.error PyError.attributeError :=
  c5_nonnumeric_lt_raises (mkVersion "alpha") (mkVersion "beta") rfl

/-- C10 [confirmed]: when not both operands are numeric, Version equality
is universally true, whatever the components of the right operand,
because the non-numeric branch compares the left operand with itself. -/
theorem c10_nonnumeric_eq_always_true (a b : Version)
    (h : (a.isNumeric && b.isNumeric) = false) :
    Version.eq a b = true := by
  simp [Version.eq, h]

/-- Witness for c10_nonnumeric_eq_always_true at two entirely different versions. -/
theorem c10_nonnumeric_eq_always_true_witness :
    Version.eq (mkVersion "abc") (mkVersion "9.9.9") = true :=
  c10_nonnumeric_eq_always_true (mkVersion "abc") (mkVersion "9.9.9") rfl

/-- C3 counterexample: the claim asserts parse of 1.2.3 is unequal to
parse of 1.2.3-beta, but Version.__eq__ ignores identifiers in the
numeric branch and evaluates to true on this pair. -/
theorem c3_identifier_equality_counterexample :
    Version.eq (mkVersion "1.2.3") (mkVersion "1.2.3-beta") = true := rfl

/-- C3 [corrected]: two Versions with equal numeric triples compare equal
regardless of their pre-release identifiers; identifier sensitivity lives
in constraint evaluation, not in Version.__eq__. -/
theorem c3_eq_ignores_identifier (a b : Version)
    (h1 : a.isNumeric = true) (h2 : b.isNumeric = true)
    (h3 : a.numTriple = b.numTriple) :
    Version.eq a b = true := by
  simp [Version.eq, h1, h2, h3]

/-- Witness for c3_eq_ignores_identifier on the spec pair 1.2.3 and
1.2.3-beta, and on the pair 1.2.3 with itself. -/
theorem c3_eq_ignores_identifier_witness :
    Version.eq (mkVersion "1.2.3") (mkVersion "1.2.3") = true ∧
    Version.eq (mkVersion "1.2.3") (mkVersion "1.2.3-beta") = true :=
  ⟨c3_eq_ignores_identifier (mkVersion "1.2.3") (mkVersion "1.2.3") rfl rfl rfl,
   c3_eq_ignores_identifier (mkVersion "1.2.3") (mkVersion "1.2.3-beta") rfl rfl rfl⟩

/-- C2 counterexample: with installed build 10 and manifest build 7 and
equal versions, the claim expects the blocking verdict, but Python
compares the build strings lexicographically, where 7 is greater than
10, so the code allows the reinstall with the unsafe warning. -/
theorem c2_reinstall_newer_build_counterexample :
    check_reinstallability (simpleMod "modx" "1.0" "7") [("modx", simpleEntry "1.0" "10")] =
      (true, true, "unsafe_reinstall", some (simpleEntry "1.0" "10")) := rfl

/-- C2 [corrected]: on a same-version reinstall of a simple mod, equal
builds give safe_reinstall, a manifest build lexicographically greater
than the installed one gives unsafe_reinstall, and a lexicographically
smaller one blocks with cant_reinstall_over_newer_build. -/
theorem c2_reinstall_build_order (n v mb ib : String) :
    check_reinstallability (simpleMod n v mb) [(n, simpleEntry v ib)] =
      (true, mb == ib || pyStrLt ib mb,
       (if mb == ib then "safe_reinstall"
        else if pyStrLt ib mb then "unsafe_reinstall"
        else "cant_reinstall_over_newer_build"),
       some (simpleEntry v ib)) := by
  cases hr : n == "community_remaster" <;>
    cases hb : mb == ib <;>
      cases hs : pyStrLt ib mb <;>
        simp [check_reinstallability, simpleMod, simpleEntry, dictGet,
              optionalContentTruthy, version_eq_refl, hr, hb, hs, tr,
              List.contains, List.elem, joinWith]

theorem dictGet_eq_none_of_not_mem {α : Type} (l : List (String × α)) (k : String)
    (h : ∀ p ∈ l, ¬ p.1 = k) : dictGet l k = none := by
  induction l with
  | nil => rfl
  | cons x rest ih =>
    have hx : ¬ x.1 = k := h x (by simp)
    have hr : dictGet rest k = none := ih (fun p hp => h p (by simp [hp]))
    simp [dictGet, hr, hx]

theorem dictGet_of_nodup {α : Type} (l : List (String × α))
    (hn : (l.map Prod.fst).Nodup) (k : String) (v : α) (hm : (k, v) ∈ l) :
    dictGet l k = some v := by
  induction l with
  | nil => cases hm
  | cons x rest ih =>
    have hn' : x.1 ∉ rest.map Prod.fst ∧ (rest.map Prod.fst).Nodup := by
      rw [List.map_cons] at hn
      exact List.nodup_cons.mp hn
    rcases List.mem_cons.mp hm with h1 | h2
    · have hx1 : x.1 = k := by rw [← h1]
      have hnone : dictGet rest k = none := by
        apply dictGet_eq_none_of_not_mem
        intro p hp hpk
        exact hn'.1 (by rw [hx1]; exact List.mem_map.mpr ⟨p, hp, hpk⟩)
      have hx2 : x.2 = v := by rw [← h1]
      simp [dictGet, hnone, hx1, hx2]
    · have := ih hn'.2
      simp [dictGet, this h2]

theorem bind_ok {α β : Type} {x : Except PyError α} {f : α → Except PyError β} {b : β}
    (h : x >>= f = Except.ok b) : ∃ a, x = Except.ok a ∧ f a = Except.ok b := by
  cases x with
  | ok a => exact ⟨a, rfl, h⟩
  | error e => exact absurd h (by simp [Bind.bind, Except.bind])

theorem expectSome_ok {α : Type} {o : Option α} {e : PyError} {a : α}
    (h : expectSome o e = Except.ok a) : o = some a := by
  cases o with
  | some x =>
    have h2 : x = a := by simpa [expectSome] using h
    rw [h2]
  | none => exact absurd h (by simp [expectSome])

theorem modFilesFold_plan (m : ModData) (sel : List (String × String)) :
    ∀ (l : List (String × String)) (acc plan : List String),
      (∀ kv ∈ l, dictGet sel kv.1 = some kv.2) →
      modFilesFold m sel l acc = Except.ok plan →
      plan = acc ++ (l.map (planJob m)).flatten := by
  intro l
  induction l with
  | nil =>
    intro acc plan _ h
    rw [modFilesFold] at h
    injection h with h2
    subst h2
    simp
  | cons kv rest ih =>
    intro acc plan hmem h
    have hkv : dictGet sel kv.1 = some kv.2 := hmem kv (by simp)
    have hrest : ∀ p ∈ rest, dictGet sel p.1 = some p.2 :=
      fun p hp => hmem p (by simp [hp])
    by_cases hbase : kv.1 == "base"
    · have hb2 : kv.1 = "base" := by simpa using hbase
      rw [hb2] at hkv
      rw [modFilesFold, if_pos hbase, hkv] at h
      rcases hopt : m.optionalContent with _ | opts
      · rw [hopt] at h
        rcases bind_ok h with ⟨u, _, h⟩
        have hres := ih (acc ++ [pjoin [m.distibutionDir, "data"]]) plan hrest h
        simp [hres, planJob, hb2]
      · rw [hopt] at h
        rcases bind_ok h with ⟨u, _, h⟩
        have hres := ih (acc ++ [pjoin [m.distibutionDir, "data"]]) plan hrest h
        simp [hres, planJob, hb2]
    · have hb2 : ¬ kv.1 = "base" := by simpa using hbase
      rw [modFilesFold, if_neg hbase] at h
      rcases bind_ok h with ⟨o, ho, h⟩
      have hwip : dictGet (optionsDict m) kv.1 = some o := expectSome_ok ho
      rcases bind_ok h with ⟨res, hres0, h⟩
      have hres1 : dictGet sel kv.1 = some res := expectSome_ok hres0
      have hres2 : res = kv.2 := by
        rw [hkv] at hres1
        exact (Option.some_inj.mp hres1).symm
      subst hres2
      by_cases hy : kv.2 == "yes"
      · have hy2 : kv.2 = "yes" := by simpa using hy
        rw [if_pos hy] at h
        have hplan := ih (acc ++ [pjoin [m.distibutionDir, o.name, "data"]]) plan hrest h
        simp [hplan, planJob, hb2, hwip, hy2]
      · have hy2 : ¬ kv.2 = "yes" := by simpa using hy
        rw [if_neg hy] at h
        by_cases hk : kv.2 == "skip"
        · have hk2 : kv.2 = "skip" := by simpa using hk
          rw [if_pos hk] at h
          have hplan := ih acc plan hrest h
          simp [hplan, planJob, hb2, hwip, hy2, hk2]
        · have hk2 : ¬ kv.2 = "skip" := by simpa using hk
          rw [if_neg hk] at h
          have hplan := ih (acc ++ [pjoin [m.distibutionDir, o.name, "data"],
            pjoin [m.distibutionDir, o.name, kv.2]]) plan hrest h
          simp [hplan, planJob, hb2, hwip, hy2, hk2]

/-- C4 counterexample: with the selection mapping base to skip on a mod
whose no_base_content flag is even set, the plan still copies the base
data directory, because the base branch of install never inspects the
selected value or the flag. -/
theorem c4_base_skip_counterexample :
    buildModFiles c4skipMod [("base", "skip")] = Except.ok ["distro/nb/data"] := rfl

/-- C4 [corrected]: a successfully built copy plan is exactly the
concatenation, in selection order, of the jobs of each selection pair:
the pair with key base always contributes the base data directory
regardless of its value and of no_base_content; an option selected yes
contributes its shared data directory; skip contributes nothing; a named
setting contributes the shared data directory and then the setting
subdirectory, in that order. -/
theorem c4_plan_characterisation (m : ModData) (sel : List (String × String))
    (plan : List String) (hn : (sel.map Prod.fst).Nodup)
    (h : buildModFiles m sel = Except.ok plan) :
    plan = (sel.map (planJob m)).flatten := by
  have hmem : ∀ kv ∈ sel, dictGet sel kv.1 = some kv.2 := by
    intro kv hkv
    exact dictGet_of_nodup sel hn kv.1 kv.2 (by simpa using hkv)
  have := modFilesFold_plan m sel sel [] plan hmem h
  simpa using this

/-- Witness for c4_plan_characterisation on a selection installing base
and a named setting of option opt1. -/
theorem c4_plan_characterisation_witness :
    ["d/data", "d/opt1/data", "d/opt1/setA"] =
      (([("base", "yes"), ("opt1", "setA")]).map (planJob c4optMod)).flatten :=
  c4_plan_characterisation c4optMod [("base", "yes"), ("opt1", "setA")]
    ["d/data", "d/opt1/data", "d/opt1/setA"] (by decide) rfl

/-- C8 [confirmed]: whatever exception the body of Mod.install raises,
the surrounding handler returns the failure status with an empty error
list, indistinguishable from a failure that produced no messages. -/
theorem c8_install_never_raises
    (copyFromTo : List String → String → Except PyError Unit)
    (m : ModData) (gameDataPath : String) (installSettings : List (String × String))
    (existingContent : List (String × InstalledEntry))
    (existingContentDescriptions : List (String × String)) (e : PyError)
    (h : installBody copyFromTo m gameDataPath installSettings existingContent
      existingContentDescriptions = Except.error e) :
    install copyFromTo m gameDataPath installSettings existingContent
      existingContentDescriptions = (false, []) := by
  simp [install, h]

/-- Witness for c8_install_never_raises: an unknown option key in the
selection raises KeyError inside the body and install returns (false, []). -/
theorem c8_install_never_raises_witness :
    installBody okCopy (simpleMod "alpha" "1.0" "1") "game/data"
      [("base", "yes"), ("missing", "yes")] [] [] = Except.error PyError.keyError ∧
    install okCopy (simpleMod "alpha" "1.0" "1") "game/data"
      [("base", "yes"), ("missing", "yes")] [] [] = (false, []) :=
  ⟨rfl,
   c8_install_never_raises okCopy (simpleMod "alpha" "1.0" "1") "game/data"
     [("base", "yes"), ("missing", "yes")] [] [] PyError.keyError rfl⟩

theorem prereqsFold_skip_filter (existing : List (String × InstalledEntry))
    (descs : List (String × String)) (env : Bool) :
    ∀ (l : List Prereq) (acc : ReqAcc),
      prereqsFold "community_remaster" existing descs env l acc =
        prereqsFold "community_remaster" existing descs env
          (l.filter (fun p => !(p.names.head? == some "community_patch"))) acc := by
  intro l
  induction l with
  | nil => intro acc; rfl
  | cons p rest ih =>
    intro acc
    rcases hp : p.names with _ | ⟨n0, ns⟩
    · simp [prereqsFold, hp, List.filter_cons]
    · by_cases h0 : n0 == "community_patch"
      · simp [prereqsFold, hp, List.filter_cons, h0, ih]
      · simp [prereqsFold, hp, List.filter_cons, h0, ih]

theorem cwmm_prereq_irrel (m : ModData) (l : List Prereq) (pv : String) :
    compatible_with_mod_manager { m with prerequisites := l } pv =
      compatible_with_mod_manager m pv := rfl

/-- C9 [confirmed]: when the mod is community_remaster, every
prerequisite whose first alternative name is community_patch is skipped
by check_requirements: the result, including requirements_met, the
messages and individual_require_status, equals the result on the
prerequisite list with those entries removed. -/
theorem c9_remaster_skips_compatch_prereq (m : ModData)
    (existing : List (String × InstalledEntry)) (descs : List (String × String))
    (pv : String) (h : m.name = "community_remaster") :
    check_requirements m existing descs pv =
      check_requirements
        { m with prerequisites :=
            m.prerequisites.filter (fun p => !(p.names.head? == some "community_patch")) }
        existing descs pv := by
  simp only [check_requirements]
  rw [cwmm_prereq_irrel m
    (m.prerequisites.filter (fun p => !(p.names.head? == some "community_patch"))) pv]
  simp only [h]
  rw [prereqsFold_skip_filter existing descs
    (!(dictGet existing "community_remaster").isSome &&
      (dictGet existing "community_patch").isSome) m.prerequisites (true, [], [])]

/-- Witness for c9_remaster_skips_compatch_prereq on a remaster mod with
a community_patch prerequisite and an ordinary one. -/
theorem c9_remaster_skips_compatch_prereq_witness :
    check_requirements c9mod [] [] "" =
      check_requirements
        { c9mod with prerequisites :=
            c9mod.prerequisites.filter (fun p => !(p.names.head? == some "community_patch")) }
        [] [] "" :=
  c9_remaster_skips_compatch_prereq c9mod [] [] "" rfl

theorem ok_bind {α β : Type} (a : α) (f : α → Except PyError β) :
    (Except.ok a >>= f) = f a := rfl

theorem error_bind {α β : Type} (e : PyError) (f : α → Except PyError β) :
    ((Except.error e : Except PyError α) >>= f) = Except.error e := rfl

theorem prereqLoop_false (l : List Val) (f : Bool) :
    prereqLoop l false f = Except.ok (false, f) := by
  induction l with
  | nil => rfl
  | cons e rest ih => simp [prereqLoop, ih]

theorem incompLoop_false (l : List Val) (f : Bool) :
    incompLoop l false f = Except.ok (false, f) := by
  induction l with
  | nil => rfl
  | cons e rest ih => simp [incompLoop, ih]

theorem prereqLoop_ok_flag (l : List Val) :
    ∀ (v0 f0 v f : Bool), prereqLoop l v0 f0 = Except.ok (v, f) → v = true →
      f = (f0 || l.any (fun e => exceptOkTrue (prereqEntryForbidden e))) := by
  induction l with
  | nil =>
    intro v0 f0 v f h _
    injection h with h2
    injection h2 with hv0 hf0
    simp [← hf0]
  | cons e rest ih =>
    intro v0 f0 v f h hv
    simp only [prereqLoop] at h
    by_cases hval : (v0 && validateDict e schemaPrereqs) = true
    · rw [if_pos hval] at h
      rcases bind_ok h with ⟨b, hb, h⟩
      have hrec := ih _ _ _ _ h hv
      have hge : exceptOkTrue (prereqEntryForbidden e) = b := by
        rw [hb]; cases b <;> rfl
      simp [hrec, hge, Bool.or_assoc]
  -- when validation has already failed, the flag can no longer change
    · rw [if_neg hval] at h
      have hcf : (v0 && validateDict e schemaPrereqs) = false := by
        cases hc : (v0 && validateDict e schemaPrereqs)
        · rfl
        · exact absurd hc hval
      rw [hcf, prereqLoop_false] at h
      injection h with h2
      injection h2 with hv0 _
      rw [← hv0] at hv
      exact Bool.noConfusion hv

theorem incompLoop_ok_flag (l : List Val) :
    ∀ (v0 f0 v f : Bool), incompLoop l v0 f0 = Except.ok (v, f) → v = true →
      f = (f0 || l.any (fun e => exceptOkTrue (incompEntryForbidden e))) := by
  induction l with
  | nil =>
    intro v0 f0 v f h _
    injection h with h2
    injection h2 with hv0 hf0
    simp [← hf0]
  | cons e rest ih =>
    intro v0 f0 v f h hv
    simp only [incompLoop] at h
    by_cases hval : (v0 && validateDict e schemaPrereqs) = true
    · rw [if_pos hval] at h
      rcases bind_ok h with ⟨b, hb, h⟩
      have hrec := ih _ _ _ _ h hv
      have hge : exceptOkTrue (incompEntryForbidden e) = b := by
        rw [hb]; cases b <;> rfl
      simp [hrec, hge, Bool.or_assoc]
    · rw [if_neg hval] at h
      have hcf : (v0 && validateDict e schemaPrereqs) = false := by
        cases hc : (v0 && validateDict e schemaPrereqs)
        · rfl
        · exact absurd hc hval
      rw [hcf, incompLoop_false] at h
      injection h with h2
      injection h2 with hv0 _
      rw [← hv0] at hv
      exact Bool.noConfusion hv

theorem prereqLoop_flag_id (l : List Val)
    (hall : ∀ e ∈ l, exceptOkTrue (prereqEntryForbidden e) = false) :
    ∀ (v0 f0 v f : Bool), prereqLoop l v0 f0 = Except.ok (v, f) → f = f0 := by
  induction l with
  | nil =>
    intro v0 f0 v f h
    injection h with h2
    injection h2 with _ hf0
    exact hf0.symm
  | cons e rest ih =>
    intro v0 f0 v f h
    have hall' : ∀ e' ∈ rest, exceptOkTrue (prereqEntryForbidden e') = false :=
      fun e' he' => hall e' (by simp [he'])
    simp only [prereqLoop] at h
    by_cases hval : (v0 && validateDict e schemaPrereqs) = true
    · rw [if_pos hval] at h
      rcases bind_ok h with ⟨b, hb, h⟩
      have hb2 : b = false := by
        have hge := hall e (by simp)
        rw [hb] at hge
        cases b
        · rfl
        · simp [exceptOkTrue] at hge
      subst hb2
      have := ih hall' _ _ _ _ h
      simpa using this
    · rw [if_neg hval] at h
      exact ih hall' _ _ _ _ h

theorem incompLoop_flag_id (l : List Val)
    (hall : ∀ e ∈ l, exceptOkTrue (incompEntryForbidden e) = false) :
    ∀ (v0 f0 v f : Bool), incompLoop l v0 f0 = Except.ok (v, f) → f = f0 := by
  induction l with
  | nil =>
    intro v0 f0 v f h
    injection h with h2
    injection h2 with _ hf0
    exact hf0.symm
  | cons e rest ih =>
    intro v0 f0 v f h
    have hall' : ∀ e' ∈ rest, exceptOkTrue (incompEntryForbidden e') = false :=
      fun e' he' => hall e' (by simp [he'])
    simp only [incompLoop] at h
    by_cases hval : (v0 && validateDict e schemaPrereqs) = true
    · rw [if_pos hval] at h
      rcases bind_ok h with ⟨b, hb, h⟩
      have hb2 : b = false := by
        have hge := hall e (by simp)
        rw [hb] at hge
        cases b
        · rfl
        · simp [exceptOkTrue] at hge
      subst hb2
      have := ih hall' _ _ _ _ h
      simpa using this
    · rw [if_neg hval] at h
      exact ih hall' _ _ _ _ h

theorem and_true_left {a b : Bool} (h : (a && b) = true) : a = true := by
  cases a
  · simp at h
  · rfl

theorem and_true_right {a b : Bool} (h : (a && b) = true) : b = true := by
  cases b
  · simp at h
  · rfl

theorem ite_false_true {c v : Bool} (h : (if c = true then false else v) = true) :
    v = true := by
  cases c
  · simpa using h
  · exact absurd h (by simp)

theorem incompLoop_mono (l : List Val) :
    ∀ (v0 f0 v f : Bool), incompLoop l v0 f0 = Except.ok (v, f) → v = true → v0 = true := by
  induction l with
  | nil =>
    intro v0 f0 v f h hv
    injection h with h2
    injection h2 with hv0 _
    rw [hv0, hv]
  | cons e rest ih =>
    intro v0 f0 v f h hv
    simp only [incompLoop] at h
    by_cases hval : (v0 && validateDict e schemaPrereqs) = true
    · exact and_true_left hval
    · have hcf : (v0 && validateDict e schemaPrereqs) = false := by
        cases hc : (v0 && validateDict e schemaPrereqs)
        · rfl
        · exact absurd hc hval
      rw [if_neg hval, hcf, incompLoop_false] at h
      injection h with h2
      injection h2 with hv0 _
      rw [← hv0] at hv
      exact Bool.noConfusion hv

theorem dataSettingsLoop_mono (isdir : String → Bool) (mp idS optN : String)
    (l : List Val) :
    ∀ v b, dataSettingsLoop isdir mp idS optN l v = Except.ok b → b = true → v = true := by
  induction l with
  | nil =>
    intro v b h hb
    injection h with h2
    rw [h2, hb]
  | cons s rest ih =>
    intro v b h hb
    simp only [dataSettingsLoop] at h
    rcases bind_ok h with ⟨nm, _, h⟩
    rcases bind_ok h with ⟨ns, _, h⟩
    have := ih _ _ h hb
    exact and_true_left this

theorem dataOptionLoop_mono (isdir : String → Bool) (mp : String) (mid : Val)
    (l : List Val) :
    ∀ v b, dataOptionLoop isdir mp mid l v = Except.ok b → b = true → v = true := by
  induction l with
  | nil =>
    intro v b h hb
    injection h with h2
    rw [h2, hb]
  | cons o rest ih =>
    intro v b h hb
    simp only [dataOptionLoop] at h
    rcases bind_ok h with ⟨nm, _, h⟩
    rcases bind_ok h with ⟨idS, _, h⟩
    rcases bind_ok h with ⟨nmS, _, h⟩
    rcases bind_ok h with ⟨sv, _, h⟩
    by_cases hc : (!sv.isNone) = true
    · rw [if_pos hc] at h
      rcases bind_ok h with ⟨settings, _, h⟩
      rcases bind_ok h with ⟨v2, hv2, h⟩
      have hv2t : v2 = true := ih _ _ h hb
      have := dataSettingsLoop_mono isdir mp idS nmS settings _ _ hv2 hv2t
      exact and_true_left this
    · rw [if_neg hc] at h
      rcases bind_ok h with ⟨v2, hv2, h⟩
      have hv2t : v2 = true := ih _ _ h hb
      injection hv2 with h2
      rw [hv2t] at h2
      exact and_true_left h2

theorem dataSection_mono (isdir : String → Bool) (mp : String) (cfg oc : Val)
    (skip : Bool) :
    ∀ v b, dataSection isdir mp cfg oc skip v = Except.ok b → b = true → v = true := by
  intro v b h hb
  unfold dataSection at h
  by_cases hs : skip
  · rw [if_pos hs] at h
    injection h with h2
    rw [h2, hb]
  · rw [if_neg hs] at h
    by_cases hnb : (!(valTruthy (topGet cfg "no_base_content"))) = true
    · rw [if_pos hnb] at h
      rcases bind_ok h with ⟨idS, _, h⟩
      rcases bind_ok h with ⟨v1, hv1, h⟩
      beta_reduce at h
      have hv1t : v1 = true := by
        by_cases hoc : (!oc.isNone) = true
        · rw [if_pos hoc] at h
          rcases bind_ok h with ⟨entries, _, h⟩
          exact dataOptionLoop_mono isdir mp _ entries _ _ h hb
        · rw [if_neg hoc] at h
          injection h with h2
          rw [h2, hb]
      injection hv1 with h2
      rw [hv1t] at h2
      exact and_true_left h2
    · rw [if_neg hnb] at h
      rcases bind_ok h with ⟨v1, hv1, h⟩
      beta_reduce at h
      have hv1t : v1 = true := by
        by_cases hoc : (!oc.isNone) = true
        · rw [if_pos hoc] at h
          rcases bind_ok h with ⟨entries, _, h⟩
          exact dataOptionLoop_mono isdir mp _ entries _ _ h hb
        · rw [if_neg hoc] at h
          injection h with h2
          rw [h2, hb]
      injection hv1 with h2
      rw [h2, hv1t]

theorem optionLoop_mono (l : List Val) :
    ∀ v b, optionLoop l v = Except.ok b → b = true → v = true := by
  induction l with
  | nil =>
    intro v b h hb
    injection h with h2
    rw [h2, hb]
  | cons o rest ih =>
    intro v b h hb
    simp only [optionLoop] at h
    rcases bind_ok h with ⟨nm, _, h⟩
    rcases bind_ok h with ⟨iset, _, h⟩
    by_cases hc : (!iset.isNone) = true
    · rw [if_pos hc] at h
      rcases bind_ok h with ⟨settings, _, h⟩
      rcases bind_ok h with ⟨v2, hv2, h⟩
      rcases bind_ok h with ⟨po, _, h⟩
      by_cases hpo : (!po.isNone) = true
      · rw [if_pos hpo] at h
        rcases bind_ok h with ⟨r, _, h⟩
        rcases bind_ok h with ⟨v3, hv3, h⟩
        have hv3t : v3 = true := ih _ _ h hb
        injection hv3 with h2
        rw [hv3t] at h2
        have hv2t : v2 = true := and_true_left h2
        injection hv2 with h3
        rw [hv2t] at h3
        exact ite_false_true (and_true_left (and_true_left h3))
      · rw [if_neg hpo] at h
        rcases bind_ok h with ⟨v3, hv3, h⟩
        have hv3t : v3 = true := ih _ _ h hb
        injection hv3 with h2
        have hv2t : v2 = true := by rw [h2, hv3t]
        injection hv2 with h3
        rw [hv2t] at h3
        exact ite_false_true (and_true_left (and_true_left h3))
    · rw [if_neg hc] at h
      rcases bind_ok h with ⟨v2, hv2, h⟩
      rcases bind_ok h with ⟨po, _, h⟩
      by_cases hpo : (!po.isNone) = true
      · rw [if_pos hpo] at h
        rcases bind_ok h with ⟨r, _, h⟩
        rcases bind_ok h with ⟨v3, hv3, h⟩
        have hv3t : v3 = true := ih _ _ h hb
        injection hv3 with h2
        rw [hv3t] at h2
        have hv2t : v2 = true := and_true_left h2
        injection hv2 with h3
        rw [hv2t] at h3
        exact ite_false_true h3
      · rw [if_neg hpo] at h
        rcases bind_ok h with ⟨v3, hv3, h⟩
        have hv3t : v3 = true := ih _ _ h hb
        injection hv3 with h2
        have hv2t : v2 = true := by rw [h2, hv3t]
        injection hv2 with h3
        rw [hv2t] at h3
        exact ite_false_true h3

theorem ocSection_mono (oc : Val) :
    ∀ v b, ocSection oc v = Except.ok b → b = true → v = true := by
  intro v b h hb
  unfold ocSection at h
  by_cases hn : oc.isNone
  · rw [if_pos hn] at h
    injection h with h2
    rw [h2, hb]
  · rw [if_neg hn] at h
    rcases bind_ok h with ⟨entries, _, h⟩
    by_cases hval : (v && validateList entries schemaOptionalContent) = true
    · exact and_true_left hval
    · rw [if_neg hval] at h
      injection h with h2
      rw [hb] at h2
      exact absurd h2 hval

theorem incompSection_mono (inc : Val) :
    ∀ v b, incompSection inc v = Except.ok b → b = true → v = true := by
  intro v b h hb
  unfold incompSection at h
  by_cases hn : inc.isNone
  · rw [if_pos hn] at h
    injection h with h2
    rw [h2, hb]
  · rw [if_neg hn] at h
    rcases bind_ok h with ⟨entries, _, h⟩
    rcases bind_ok h with ⟨r, hr, h⟩
    injection h with h2
    rw [hb] at h2
    have hr1 : r.1 = true := and_true_left h2
    exact incompLoop_mono entries v false r.1 r.2 hr hr1

theorem bind_congr_fun {α β : Type} {x : Except PyError α}
    {f g : α → Except PyError β} (h : ∀ a, f a = g a) : x >>= f = x >>= g := by
  cases x with
  | ok a => simpa [ok_bind] using h a
  | error e => simp [error_bind]

theorem prereqSection_eq_NF (pre : Val) (v : Bool)
    (hp : ∀ l, pre = Val.vlist l → ∀ e ∈ l, exceptOkTrue (prereqEntryForbidden e) = false) :
    prereqSection pre v = prereqSectionNF pre v := by
  unfold prereqSection prereqSectionNF
  by_cases hn : pre.isNone
  · rw [if_pos hn, if_pos hn]
  · rw [if_neg hn, if_neg hn]
    rcases pre with _ | b | n | q | s | l | d
    · rfl
    · rfl
    · rfl
    · rfl
    · rfl
    · simp only [valIter, ok_bind]
      rcases hres : prereqLoop l v false with e | r
      · simp [error_bind]
      · simp only [ok_bind]
        have hf : r.2 = false :=
          prereqLoop_flag_id l (hp l rfl) v false r.1 r.2 hres
      -- with a clear flag the extra conjunct is the identity
        simp [hf]
    · rfl

theorem incompSection_eq_NF (inc : Val) (v : Bool)
    (hp : ∀ l, inc = Val.vlist l → ∀ e ∈ l, exceptOkTrue (incompEntryForbidden e) = false) :
    incompSection inc v = incompSectionNF inc v := by
  unfold incompSection incompSectionNF
  by_cases hn : inc.isNone
  · rw [if_pos hn, if_pos hn]
  · rw [if_neg hn, if_neg hn]
    rcases inc with _ | b | n | q | s | l | d
    · rfl
    · rfl
    · rfl
    · rfl
    · rfl
    · simp only [valIter, ok_bind]
      rcases hres : incompLoop l v false with e | r
      · simp [error_bind]
      · simp only [ok_bind]
        have hf : r.2 = false :=
          incompLoop_flag_id l (hp l rfl) v false r.1 r.2 hres
        simp [hf]
    · rfl

/-- C7 counterexample: a manifest whose community_patch prerequisite
carries optional_content "abc" (a truthy non-list, so not a non-empty
optional_content list) is nevertheless rejected, and precisely by the
forbidden-prerequisite flag, as the variant without that flag accepts
the same manifest. -/
theorem c7_truthy_optional_content_counterexample :
    validate_install_config allDirs c7truthyOcCfg "mods/m/manifest.yaml" true =
      Except.ok false ∧
    validate_install_config_noForbidden allDirs c7truthyOcCfg "mods/m/manifest.yaml" true =
      Except.ok true :=
  ⟨rfl, rfl⟩

/-- C7 [corrected]: validate_install_config never validates a manifest
in which some prerequisite entry pairs community_patch with a truthy
optional_content value, nor one in which some incompatible entry names
community_patch; and on manifests with no such entries its verdict
coincides with the variant that has the two forbidden-flag conjunctions
removed, so such manifests are not rejected on these grounds. -/
theorem c7_forbidden_configurations (isdir : String → Bool) (cfg : Val)
    (path : String) (skip : Bool) :
    (forbiddenPrereqs cfg = true →
      validate_install_config isdir cfg path skip ≠ Except.ok true) ∧
    (forbiddenIncomps cfg = true →
      validate_install_config isdir cfg path skip ≠ Except.ok true) ∧
    (forbiddenPrereqs cfg = false → forbiddenIncomps cfg = false →
      validate_install_config isdir cfg path skip =
        validate_install_config_noForbidden isdir cfg path skip) := by
  refine ⟨?_, ?_, ?_⟩
  · intro hforb hok
    rcases cfg with _ | b | n | q | s | l | entries
    case vnone => simp [forbiddenPrereqs, topGet] at hforb
    case vbool => simp [forbiddenPrereqs, topGet] at hforb
    case vint => simp [forbiddenPrereqs, topGet] at hforb
    case vfloat => simp [forbiddenPrereqs, topGet] at hforb
    case vstr => simp [forbiddenPrereqs, topGet] at hforb
    case vlist => simp [forbiddenPrereqs, topGet] at hforb
    case vdict =>
      simp only [validate_install_config] at hok
      by_cases htop : validateDict (Val.vdict entries) schemaFiedsTop = true
      · rw [if_pos htop] at hok
        rcases bind_ok hok with ⟨v1, h1, hok⟩
        rcases bind_ok hok with ⟨v2, h2, hok⟩
        rcases bind_ok hok with ⟨v3, h3, hok⟩
        rcases bind_ok hok with ⟨v4, h4, hok⟩
        rcases bind_ok hok with ⟨v5, h5, hok⟩
        have hv5 : v5 = true := by
          injection hok with h6
        have hv4 : v4 = true :=
          dataSection_mono isdir _ _ _ skip v4 v5 h5 hv5
        have hv3 : v3 = true := ocSection_mono _ v3 v4 h4 hv4
        have hv2 : v2 = true := incompSection_mono _ v2 v3 h3 hv3
        rcases hpre : topGet (Val.vdict entries) "prerequisites"
            with _ | pb | pn | pq | ps | lpre | pd
        · rw [forbiddenPrereqs, hpre] at hforb; exact Bool.noConfusion hforb
        · rw [forbiddenPrereqs, hpre] at hforb; exact Bool.noConfusion hforb
        · rw [forbiddenPrereqs, hpre] at hforb; exact Bool.noConfusion hforb
        · rw [forbiddenPrereqs, hpre] at hforb; exact Bool.noConfusion hforb
        · rw [forbiddenPrereqs, hpre] at hforb; exact Bool.noConfusion hforb
        · rw [forbiddenPrereqs, hpre] at hforb
          have hany : lpre.any (fun e => exceptOkTrue (prereqEntryForbidden e)) = true := hforb
          rw [hpre] at h2
          unfold prereqSection at h2
          rw [if_neg (by simp [Val.isNone])] at h2
          simp only [valIter, ok_bind] at h2
          rcases bind_ok h2 with ⟨r, hr, h2⟩
          injection h2 with h2e
          rw [hv2] at h2e
          have hr1 : r.1 = true := and_true_left h2e
          have hr2 : (!r.2) = true := and_true_right h2e
          have hflag := prereqLoop_ok_flag lpre v1 false r.1 r.2 hr hr1
          rw [hany] at hflag
          simp at hflag
          rw [hflag] at hr2
          exact Bool.noConfusion hr2
        · rw [forbiddenPrereqs, hpre] at hforb; exact Bool.noConfusion hforb
      · have htf : validateDict (Val.vdict entries) schemaFiedsTop = false := by
          cases hc : validateDict (Val.vdict entries) schemaFiedsTop
          · rfl
          · exact absurd hc htop
        rw [htf] at hok
        simp at hok
  · intro hforb hok
    rcases cfg with _ | b | n | q | s | l | entries
    case vnone => simp [forbiddenIncomps, topGet] at hforb
    case vbool => simp [forbiddenIncomps, topGet] at hforb
    case vint => simp [forbiddenIncomps, topGet] at hforb
    case vfloat => simp [forbiddenIncomps, topGet] at hforb
    case vstr => simp [forbiddenIncomps, topGet] at hforb
    case vlist => simp [forbiddenIncomps, topGet] at hforb
    case vdict =>
      simp only [validate_install_config] at hok
      by_cases htop : validateDict (Val.vdict entries) schemaFiedsTop = true
      · rw [if_pos htop] at hok
        rcases bind_ok hok with ⟨v1, h1, hok⟩
        rcases bind_ok hok with ⟨v2, h2, hok⟩
        rcases bind_ok hok with ⟨v3, h3, hok⟩
        rcases bind_ok hok with ⟨v4, h4, hok⟩
        rcases bind_ok hok with ⟨v5, h5, hok⟩
        have hv5 : v5 = true := by
          injection hok with h6
        have hv4 : v4 = true :=
          dataSection_mono isdir _ _ _ skip v4 v5 h5 hv5
        have hv3 : v3 = true := ocSection_mono _ v3 v4 h4 hv4
        rcases hinc : topGet (Val.vdict entries) "incompatible"
            with _ | pb | pn | pq | ps | linc | pd
        · rw [forbiddenIncomps, hinc] at hforb; exact Bool.noConfusion hforb
        · rw [forbiddenIncomps, hinc] at hforb; exact Bool.noConfusion hforb
        · rw [forbiddenIncomps, hinc] at hforb; exact Bool.noConfusion hforb
        · rw [forbiddenIncomps, hinc] at hforb; exact Bool.noConfusion hforb
        · rw [forbiddenIncomps, hinc] at hforb; exact Bool.noConfusion hforb
        · rw [forbiddenIncomps, hinc] at hforb
          have hany : linc.any (fun e => exceptOkTrue (incompEntryForbidden e)) = true := hforb
          rw [hinc] at h3
          unfold incompSection at h3
          rw [if_neg (by simp [Val.isNone])] at h3
          simp only [valIter, ok_bind] at h3
          rcases bind_ok h3 with ⟨r, hr, h3⟩
          injection h3 with h3e
          rw [hv3] at h3e
          have hr1 : r.1 = true := and_true_left h3e
          have hr2 : (!r.2) = true := and_true_right h3e
          have hflag := incompLoop_ok_flag linc v2 false r.1 r.2 hr hr1
          rw [hany] at hflag
          simp at hflag
          rw [hflag] at hr2
          exact Bool.noConfusion hr2
        · rw [forbiddenIncomps, hinc] at hforb; exact Bool.noConfusion hforb
      · have htf : validateDict (Val.vdict entries) schemaFiedsTop = false := by
          cases hc : validateDict (Val.vdict entries) schemaFiedsTop
          · rfl
          · exact absurd hc htop
        rw [htf] at hok
        simp at hok
  · intro hp hi
    rcases cfg with _ | b | n | q | s | l | entries
    case vnone => rfl
    case vbool => rfl
    case vint => rfl
    case vfloat => rfl
    case vstr => rfl
    case vlist => rfl
    case vdict =>
      have hp' : ∀ lp, topGet (Val.vdict entries) "prerequisites" = Val.vlist lp →
          ∀ e ∈ lp, exceptOkTrue (prereqEntryForbidden e) = false := by
        intro lp hlp e he
        rw [forbiddenPrereqs, hlp] at hp
        simp only [List.any_eq_false] at hp
        have := hp e he
        cases hge : exceptOkTrue (prereqEntryForbidden e)
        · rfl
        · exact absurd hge this
      have hi' : ∀ li, topGet (Val.vdict entries) "incompatible" = Val.vlist li →
          ∀ e ∈ li, exceptOkTrue (incompEntryForbidden e) = false := by
        intro li hli e he
        rw [forbiddenIncomps, hli] at hi
        simp only [List.any_eq_false] at hi
        have := hi e he
        cases hge : exceptOkTrue (incompEntryForbidden e)
        · rfl
        · exact absurd hge this
      simp only [validate_install_config, validate_install_config_noForbidden]
      by_cases htop : validateDict (Val.vdict entries) schemaFiedsTop = true
      · rw [if_pos htop, if_pos htop]
        apply bind_congr_fun
        intro v1
        rw [prereqSection_eq_NF _ v1 hp']
        apply bind_congr_fun
        intro v2
        rw [incompSection_eq_NF _ v2 hi']
      · have htf : validateDict (Val.vdict entries) schemaFiedsTop = false := by
          cases hc : validateDict (Val.vdict entries) schemaFiedsTop
          · rfl
          · exact absurd hc htop
        rw [htf]
        simp

/-- Witness for c7_forbidden_configurations: a claim-style forbidden
prerequisite (community_patch with a non-empty optional_content list)
blocks validation, an incompatible naming community_patch blocks
validation, and a manifest without forbidden entries gets the same
verdict as the variant without the forbidden checks. -/
theorem c7_forbidden_configurations_witness :
    validate_install_config allDirs c7forbiddenPrereqCfg "mods/m/manifest.yaml" true ≠
      Except.ok true ∧
    validate_install_config allDirs c7forbiddenIncompCfg "mods/m/manifest.yaml" true ≠
      Except.ok true ∧
    validate_install_config allDirs c7cleanCfg "mods/m/manifest.yaml" true =
      validate_install_config_noForbidden allDirs c7cleanCfg "mods/m/manifest.yaml" true :=
  ⟨(c7_forbidden_configurations allDirs c7forbiddenPrereqCfg "mods/m/manifest.yaml" true).1
     (by decide),
   (c7_forbidden_configurations allDirs c7forbiddenIncompCfg "mods/m/manifest.yaml" true).2.1
     (by decide),
   (c7_forbidden_configurations allDirs c7cleanCfg "mods/m/manifest.yaml" true).2.2
     (by decide) (by decide)⟩

end ComMod
